import Mathlib

/-!
# Verification of the per-session RAG engine (`backend/rag/`)

Shallow embedding of the repository's retrieval-augmented-generation
subsystem: the vector store (`vector-store.js`), the indexer and session
orchestrator (`rag/index.js`), and the query/answer pipeline (`query.js`).

JavaScript numbers are modelled as exact rationals (`ℚ`); the external
`embeddings.js` module (absent from the sources: only its importers are
present) is abstracted as function parameters, with spec-modelled stand-ins
where a claim needs a concrete similarity.  File-system reads and JSON text
parsing are JS builtins; the serialized snapshot is modelled at the level of
the parsed JSON value (a `Json` AST), since `JSON.parse ∘ JSON.stringify` is
the identity on that value up to float formatting.
-/

namespace Rag

/-- An embedding vector: JS `number[]`, modelled over exact rationals. -/
abbrev Emb := List ℚ

/-- The metadata record built by `indexSession` in `rag/index.js`:
`{url, topic, sentiment, date, context, knowledge_domain, people_mentioned}`.
Optional fields model JS `undefined`. -/
structure Metadata where
  url : Option String := none
  topic : Option String := none
  sentiment : Option String := none
  date : Option String := none
  context : Option String := none
  knowledge_domain : Option String := none
  people_mentioned : List String := []
deriving Repr, DecidableEq

/-- A stored document, as pushed by `VectorStore.add`:
`{id, text, metadata, embedding}`. -/
structure Document where
  id : String
  text : String
  metadata : Metadata
  embedding : Emb
deriving Repr, DecidableEq

/-- The caller-supplied argument of `VectorStore.add`; `id` and `metadata`
may be absent (`doc.id || generated`, `doc.metadata || {}`). -/
structure DocInput where
  id : Option String := none
  text : String
  metadata : Option Metadata := none
  embedding : Emb
deriving Repr, DecidableEq

/-- A search result as produced by `VectorStore.search`: the document spread
together with its similarity score (`{...doc, score}`). -/
structure Scored where
  doc : Document
  score : ℚ
deriving Repr, DecidableEq

/-- JS string truthiness for `x || default`: `undefined` and `""` are falsy. -/
def jsOr (x : Option String) (dflt : String) : String :=
  match x with
  | none => dflt
  | some s => if s = "" then dflt else s

/-- `Array.prototype.slice(0, k)` for an integer `k`: a nonnegative end
index is clamped to the length, a negative end index counts from the end
(`max (len + k) 0`). -/
def jsSliceTo (k : ℤ) (l : List α) : List α :=
  if 0 ≤ k then l.take k.toNat else l.take (l.length - (-k).toNat)

/-- Insert into a descending-sorted list, before the first element whose key
does not exceed the inserted key (so an element inserted from the left of
the original list lands before later equal-keyed elements: stability). -/
def insertByKeyDesc (key : α → ℚ) (x : α) : List α → List α
  | [] => [x]
  | y :: ys => if key y ≤ key x then x :: y :: ys else y :: insertByKeyDesc key x ys

/-- Stable descending sort by key.  ECMAScript `Array.prototype.sort` with
the consistent comparator `(a, b) => b.score - a.score` is required to
produce exactly this list: the unique permutation that is sorted by
descending key and preserves the input order of equal-keyed elements. -/
def sortByKeyDesc (key : α → ℚ) : List α → List α
  | [] => []
  | x :: xs => insertByKeyDesc key x (sortByKeyDesc key xs)

namespace VectorStore

/-- `this.documents.map(doc => ({...doc, score: cosineSimilarity(queryEmbedding,
doc.embedding)}))` — the similarity function is a parameter because
`embeddings.js` is external to the sources. -/
def scoredOf (sim : Emb → Emb → ℚ) (q : Emb) (docs : List Document) : List Scored :=
  docs.map fun d => { doc := d, score := sim q d.embedding }

/-- `VectorStore.search(queryEmbedding, topK)` from `vector-store.js`:
score every document, sort descending by score (stable), `slice(0, topK)`. -/
def search (sim : Emb → Emb → ℚ) (q : Emb) (topK : ℤ) (docs : List Document) :
    List Scored :=
  jsSliceTo topK (sortByKeyDesc Scored.score (scoredOf sim q docs))

/-- `VectorStore.add(doc)` from `vector-store.js`: unconditionally pushes
`{id: doc.id || genId, text: doc.text, metadata: doc.metadata || {}, embedding:
doc.embedding}`; `genId` stands for the generated
`doc_${Date.now()}_${Math.random()}` string. -/
def add (doc : DocInput) (genId : String) (docs : List Document) : List Document :=
  docs ++ [{ id := jsOr doc.id genId
             text := doc.text
             metadata := doc.metadata.getD {}
             embedding := doc.embedding }]

/-- `VectorStore.size()`. -/
def size (docs : List Document) : Nat := docs.length

/-- `VectorStore.clear()`. -/
def clear (_docs : List Document) : List Document := []

end VectorStore

/-- The JSON value written by `save` and produced by `JSON.parse` in `load`.
`JSON.stringify`/`JSON.parse` (JS builtins, external to the repository) are
mutually inverse on this AST, so the snapshot file is modelled at the level
of its parsed value. -/
inductive Json where
  | null
  | bool (b : Bool)
  | num (q : ℚ)
  | str (s : String)
  | arr (elems : List Json)
  | obj (fields : List (String × Json))

/-- An optional string field of the metadata record.  In JS an `undefined`
field is dropped by `JSON.stringify` and reads back as `undefined`; the model
keeps the key with an explicit `null`, which is observationally the same for
every reader in the sources (plain field access). -/
def Json.ofOptStr : Option String → Json
  | none => .null
  | some s => .str s

/-- Inverse of `Json.ofOptStr` on its range. -/
def optStrOfJson : Json → Option (Option String)
  | .null => some none
  | .str s => some (some s)
  | _ => none

/-- Decode a JSON array of strings (e.g. `people_mentioned`). -/
def decodeStrs : List Json → Option (List String)
  | [] => some []
  | .str s :: rest => (decodeStrs rest).map (s :: ·)
  | _ => none

/-- Decode a JSON array of numbers (an embedding vector). -/
def decodeNums : List Json → Option (List ℚ)
  | [] => some []
  | .num q :: rest => (decodeNums rest).map (q :: ·)
  | _ => none

/-- Serialization of the metadata record, key order as written by
`JSON.stringify` of the object literal in `indexSession`. -/
def Metadata.toJson (m : Metadata) : Json :=
  .obj [("url", Json.ofOptStr m.url),
        ("topic", Json.ofOptStr m.topic),
        ("sentiment", Json.ofOptStr m.sentiment),
        ("date", Json.ofOptStr m.date),
        ("context", Json.ofOptStr m.context),
        ("knowledge_domain", Json.ofOptStr m.knowledge_domain),
        ("people_mentioned", .arr (m.people_mentioned.map .str))]

/-- Partial inverse of `Metadata.toJson`. -/
def Metadata.fromJson : Json → Option Metadata
  | .obj [("url", u), ("topic", t), ("sentiment", s), ("date", d),
          ("context", c), ("knowledge_domain", k), ("people_mentioned", .arr p)] =>
    match optStrOfJson u, optStrOfJson t, optStrOfJson s, optStrOfJson d,
          optStrOfJson c, optStrOfJson k, decodeStrs p with
    | some url, some topic, some sentiment, some date,
      some ctx, some kd, some pm =>
      some { url := url, topic := topic, sentiment := sentiment, date := date,
             context := ctx, knowledge_domain := kd, people_mentioned := pm }
    | _, _, _, _, _, _, _ => none
  | _ => none

/-- Serialization of a stored document, key order as pushed by `add`. -/
def Document.toJson (d : Document) : Json :=
  .obj [("id", .str d.id), ("text", .str d.text),
        ("metadata", d.metadata.toJson),
        ("embedding", .arr (d.embedding.map .num))]

/-- Partial inverse of `Document.toJson`. -/
def Document.fromJson : Json → Option Document
  | .obj [("id", .str i), ("text", .str t), ("metadata", m), ("embedding", .arr e)] =>
    match Metadata.fromJson m, decodeNums e with
    | some md, some emb => some { id := i, text := t, metadata := md, embedding := emb }
    | _, _ => none
  | _ => none

/-- `JSON.stringify(this.documents)`: the document list as a JSON array. -/
def docsToJson (docs : List Document) : Json :=
  .arr (docs.map Document.toJson)

/-- Decode a JSON array of document records. -/
def decodeDocs : List Json → Option (List Document)
  | [] => some []
  | j :: rest =>
    match Document.fromJson j, decodeDocs rest with
    | some d, some ds => some (d :: ds)
    | _, _ => none

/-- Partial inverse of `docsToJson`. -/
def docsFromJson : Json → Option (List Document)
  | .arr xs => decodeDocs xs
  | _ => none

/-- What `fs.readFile` + `JSON.parse` can yield for the snapshot path. -/
inductive SnapshotFile where
  | missing            -- `fs.readFile` fails with code `ENOENT`
  | ioError            -- `fs.readFile` fails with any other code
  | corrupt            -- the file is read but `JSON.parse` throws
  | parsed (j : Json)  -- the file is read and parses to the value `j`

/-- Errors that escape `VectorStore.load`. -/
inductive LoadError where
  | ioError | parseError | shapeError
deriving DecidableEq, Repr

namespace VectorStore

/-- `VectorStore.load()` from `vector-store.js`: `try { data = readFile;
documents = JSON.parse(data) } catch (err) { if (err.code !== 'ENOENT') throw
err; documents = [] }`.  Only a missing file is swallowed; a read error or a
`JSON.parse` `SyntaxError` (whose `code` is not `ENOENT`) is rethrown.  The
source assigns the parsed value to `this.documents` without validation; the
typed model decodes it, mapping non-document-shaped JSON (which the source
would silently store as-is, never produced by `save`) to `shapeError`. -/
def load : SnapshotFile → Except LoadError (List Document)
  | .missing => .ok []
  | .ioError => .error .ioError
  | .corrupt => .error .parseError
  | .parsed j =>
    match docsFromJson j with
    | some docs => .ok docs
    | none => .error .shapeError

/-- `VectorStore.save()` from `vector-store.js`: writes
`JSON.stringify(this.documents)` to the snapshot path, i.e. a file whose
parsed value is `docsToJson docs`. -/
def save (docs : List Document) : SnapshotFile :=
  .parsed (docsToJson docs)

end VectorStore

/-- One scraped content item, as consumed by `indexSession`. -/
structure ContentItem where
  text : String
  topic : Option String := none
  sentiment : Option String := none
  date : Option String := none
  context : Option String := none
  knowledge_domain : Option String := none
  people_mentioned : List String := []
deriving Repr, DecidableEq

/-- One entry of `data.scrapedData.scraped_content`. -/
structure ScrapedSource where
  url : Option String := none
  content_items : List ContentItem
deriving Repr, DecidableEq

/-- The parsed scraped-session file `data/scraped/<sessionId>.json`. -/
structure ScrapedData where
  sessionId : String
  masterPrompt : String
  scraped_content : List ScrapedSource
deriving Repr, DecidableEq

/-- The metadata record `indexSession` builds for one item. -/
def metadataOf (url : Option String) (item : ContentItem) : Metadata :=
  { url := url, topic := item.topic, sentiment := item.sentiment,
    date := item.date, context := item.context,
    knowledge_domain := item.knowledge_domain,
    people_mentioned := item.people_mentioned }

/-- A failure of the external embedding service. -/
structure EmbedError where
  message : String
deriving DecidableEq, Repr

/-- The Embedding Port `embed(text)` of the external `embeddings.js` module
(absent from the sources), as a parameter. -/
abbrev EmbedFn := String → Except EmbedError Emb

/-- Mutable state threaded through `indexSession`'s loops: the vector store
being filled, the `indexed` counter, and the number of `embed` invocations. -/
structure IndexState where
  store : List Document
  indexed : Nat
  embedCalls : Nat
deriving Repr, DecidableEq

/-- The inner `for (const item of source.content_items)` loop of
`indexSession`: embed the item's text, push it onto the store.  An embedding
failure is not caught: the exception aborts the loop (and the whole batch),
leaving previously added documents in the store. -/
def indexItems (embedFn : EmbedFn) (gen : Nat → String) (url : Option String)
    (items : List ContentItem) (st : IndexState) : IndexState × Option EmbedError :=
  match items with
  | [] => (st, none)
  | item :: rest =>
    match embedFn item.text with
    | .error e => ({ st with embedCalls := st.embedCalls + 1 }, some e)
    | .ok emb =>
      indexItems embedFn gen url rest
        { store := VectorStore.add
            { text := item.text, metadata := some (metadataOf url item),
              embedding := emb } (gen st.indexed) st.store
          indexed := st.indexed + 1
          embedCalls := st.embedCalls + 1 }

/-- The outer `for (const source of data.scrapedData.scraped_content)` loop;
an uncaught embedding failure aborts the remaining sources as well. -/
def indexSources (embedFn : EmbedFn) (gen : Nat → String)
    (sources : List ScrapedSource) (st : IndexState) : IndexState × Option EmbedError :=
  match sources with
  | [] => (st, none)
  | src :: rest =>
    match indexItems embedFn gen src.url src.content_items st with
    | (st', some e) => (st', some e)
    | (st', none) => indexSources embedFn gen rest st'

/-- The total number of content items across all scraped sources — the
number of `embed` calls a full successful indexing pass performs. -/
def totalItems (sources : List ScrapedSource) : Nat :=
  (sources.map fun s => s.content_items.length).sum

/-- The record `indexSession` returns on success:
`{indexed, sessionId, masterPrompt}` (no failure count of any kind). -/
structure IndexStats where
  indexed : Nat
  sessionId : String
  masterPrompt : String
deriving Repr, DecidableEq

/-- Errors that escape `indexSession`. -/
inductive IndexError where
  | sessionFileMissing
  | embedFailed (e : EmbedError)
deriving DecidableEq, Repr

/-- `indexSession(sessionId, vectorStore)` from `rag/index.js`: parse the
scraped-session file (`none` models a missing/unreadable file, whose read
error propagates), then embed and add every content item of every source.
Returns the final store contents, the number of `embed` invocations, and the
stats record or the propagated error.  The store argument is the caller's
`vectorStore` object, mutated in place, so documents added before a failure
remain in it. -/
def indexSession (embedFn : EmbedFn) (gen : Nat → String)
    (scraped : Option ScrapedData) (store : List Document) :
    List Document × Nat × Except IndexError IndexStats :=
  match scraped with
  | none => (store, 0, .error .sessionFileMissing)
  | some data =>
    match indexSources embedFn gen data.scraped_content ⟨store, 0, 0⟩ with
    | (st, some e) => (st.store, st.embedCalls, .error (.embedFailed e))
    | (st, none) =>
      (st.store, st.embedCalls,
       .ok { indexed := st.indexed, sessionId := data.sessionId,
             masterPrompt := data.masterPrompt })

/-- Errors that escape `initRAG`. -/
inductive InitError where
  | loadFailed (e : LoadError)
  | indexFailed (e : IndexError)
  | sessionFileMissing   -- the unconditional master-prompt read fails
deriving DecidableEq, Repr

/-- The external state one `initRAG(sessionId)` call observes: the
per-session snapshot file `data/vector-stores/<sessionId>.json` and the
scraped file `data/scraped/<sessionId>.json` (`none` = absent). -/
structure Env where
  snapshot : SnapshotFile
  scraped : Option ScrapedData

/-- What `initRAG` resolves with: the populated store and the parsed
scraped-session data (whose `masterPrompt` seeds `query`'s system prompt). -/
structure RagHandle where
  store : List Document
  sessionData : ScrapedData
deriving DecidableEq

/-- The observable outcome of one `initRAG` call: how many `embed` calls it
made, the snapshot-file contents after it (it writes only via
`vectorStore.save()`), and its result. -/
structure InitOutcome where
  embedCalls : Nat
  snapshotAfter : SnapshotFile
  result : Except InitError RagHandle

/-- `initRAG(sessionId)` from `rag/index.js`: construct a fresh local
`VectorStore`, `load()` it from the per-session snapshot; if `size() === 0`
run `indexSession` and `save()`; finally — unconditionally — re-read the
scraped-session file for the master prompt.  There is no rebuild option and
no per-session lock or in-flight-build registry anywhere in the source. -/
def initRAG (embedFn : EmbedFn) (gen : Nat → String) (env : Env) : InitOutcome :=
  match VectorStore.load env.snapshot with
  | .error e => ⟨0, env.snapshot, .error (.loadFailed e)⟩
  | .ok docs =>
    if docs.length = 0 then
      match indexSession embedFn gen env.scraped docs with
      | (_, calls, .error e) => ⟨calls, env.snapshot, .error (.indexFailed e)⟩
      | (store', calls, .ok _stats) =>
        let snap := VectorStore.save store'
        match env.scraped with
        | none => ⟨calls, snap, .error .sessionFileMissing⟩
        | some data => ⟨calls, snap, .ok ⟨store', data⟩⟩
    else
      match env.scraped with
      | none => ⟨0, env.snapshot, .error .sessionFileMissing⟩
      | some data => ⟨0, env.snapshot, .ok ⟨docs, data⟩⟩

/-- Two `initRAG` calls for the same session.  The source's `initRAG` takes
no lock and keeps no in-flight future: each call builds its own local
`VectorStore`, and the only state shared between overlapping calls is the
snapshot file, so an interleaving is characterized by whether the second
call's `load()` observes the first call's `save()` (`secondSeesSave = true`,
the serialized order) or the initial file (`false`, both loads before either
save — an admissible schedule of the unsynchronized async calls).  Returns
the total number of `embed` invocations across both calls. -/
def twoCallEmbedCalls (embedFn : EmbedFn) (gen₁ gen₂ : Nat → String)
    (env : Env) (secondSeesSave : Bool) : Nat :=
  let a := initRAG embedFn gen₁ env
  let envB : Env :=
    { env with snapshot := if secondSeesSave then a.snapshotAfter else env.snapshot }
  a.embedCalls + (initRAG embedFn gen₂ envB).embedCalls

/-- A chat message `{role, content}`. -/
structure ChatMessage where
  role : String
  content : String
deriving Repr, DecidableEq

/-- The fallback system prompt in `generateAnswer`. -/
def defaultSystemMessage : String :=
  "You are a helpful assistant. Use the provided context to answer questions accurately."

/-- `relevantDocs.map((doc, i) => ` ... `[${i + 1}] ${doc.text}` ... `).join('\n\n')`. -/
def buildContext (relevantDocs : List Scored) : String :=
  String.intercalate "\n\n"
    (relevantDocs.enum.map fun p => "[" ++ toString (p.1 + 1) ++ "] " ++ p.2.doc.text)

/-- `conversationHistory.slice(-5)`: the last five messages (all of them when
fewer). -/
def lastN (n : Nat) (l : List α) : List α := l.drop (l.length - n)

/-- The `messages` array assembled by `generateAnswer` in `query.js`: the
system message (`systemPrompt || default`), then `{role, content}` copies of
the last five history messages in order, then the final user turn carrying
the numbered snippets and the question. -/
def buildMessages (question : String) (relevantDocs : List Scored)
    (systemPrompt : Option String) (conversationHistory : List ChatMessage) :
    List ChatMessage :=
  ({ role := "system", content := jsOr systemPrompt defaultSystemMessage } ::
    (lastN 5 conversationHistory).map fun m => { role := m.role, content := m.content }) ++
  [{ role := "user",
     content := "Context from your background:\n" ++ buildContext relevantDocs ++
       "\n\nQuestion: " ++ question ++
       "\n\nAnswer naturally based on the context and our conversation:" }]

/-- A failure of the external generation service. -/
structure GenError where
  message : String
deriving DecidableEq, Repr

/-- The Generation Port (the `openai.chat.completions.create` call), as a
parameter. -/
abbrev GenerateFn := List ChatMessage → Except GenError String

/-- `generateAnswer(question, relevantDocs, systemPrompt, conversationHistory)`
from `query.js`: assemble the messages and call the generation service. -/
def generateAnswer (generateFn : GenerateFn) (question : String)
    (relevantDocs : List Scored) (systemPrompt : Option String)
    (conversationHistory : List ChatMessage) : Except GenError String :=
  generateFn (buildMessages question relevantDocs systemPrompt conversationHistory)

/-- One entry of `ragQuery`'s `sources`: `{text, metadata, score}`. -/
structure SourceEntry where
  text : String
  metadata : Metadata
  score : ℚ
deriving Repr, DecidableEq

/-- What `ragQuery` resolves with: `{answer, sources}`. -/
structure RagResult where
  answer : String
  sources : List SourceEntry
deriving Repr, DecidableEq

/-- `ragQuery`'s options with their defaults. -/
structure QueryOptions where
  topK : ℤ := 5
  systemPrompt : Option String := none
  conversationHistory : List ChatMessage := []

/-- Errors that escape `ragQuery`: the propagated question-embedding failure
(the spec's `RetrievalUnavailable`) or a generation failure. -/
inductive RagError where
  | retrievalUnavailable (e : EmbedError)
  | generationFailed (e : GenError)
deriving DecidableEq, Repr

/-- `ragQuery(question, vectorStore, options)` from `query.js`: embed the
question (a failure propagates immediately), search the store, generate the
answer, and return `{answer, sources}`.  The second component counts the
generation-service invocations the call performs. -/
def ragQuery (embedFn : EmbedFn) (generateFn : GenerateFn) (sim : Emb → Emb → ℚ)
    (question : String) (docs : List Document) (opts : QueryOptions) :
    Except RagError RagResult × Nat :=
  match embedFn question with
  | .error e => (.error (.retrievalUnavailable e), 0)
  | .ok qEmb =>
    let relevantDocs := VectorStore.search sim qEmb opts.topK docs
    match generateAnswer generateFn question relevantDocs opts.systemPrompt
        opts.conversationHistory with
    | .error e => (.error (.generationFailed e), 1)
    | .ok answer =>
      (.ok { answer := answer
             sources := relevantDocs.map fun r =>
               { text := r.doc.text, metadata := r.doc.metadata, score := r.score } }, 1)

/-- Strict ranking order on index-decorated elements: higher key first,
equal keys ordered by original position.  A stable descending sort of an
index-decorated list is pairwise in this order. -/
def lexDesc (key : α → ℚ) (a b : Nat × α) : Prop :=
  key b.2 < key a.2 ∨ (key a.2 = key b.2 ∧ a.1 < b.1)

/-! ### Helper lemmas: the stable descending sort -/

theorem length_insertByKeyDesc (key : α → ℚ) (x : α) (l : List α) :
    (insertByKeyDesc key x l).length = l.length + 1 := by
  induction l with
  | nil => rfl
  | cons y ys ih =>
    simp only [insertByKeyDesc]
    by_cases h : key y ≤ key x
    · simp [h]
    · simp [h, ih]

theorem perm_insertByKeyDesc (key : α → ℚ) (x : α) (l : List α) :
    List.Perm (insertByKeyDesc key x l) (x :: l) := by
  induction l with
  | nil => exact List.Perm.refl _
  | cons y ys ih =>
    simp only [insertByKeyDesc]
    by_cases h : key y ≤ key x
    · simp only [h, if_pos]
      exact List.Perm.refl _
    · simp only [h, if_neg, not_false_iff]
      exact (List.Perm.cons y ih).trans (List.Perm.swap x y ys)

theorem perm_sortByKeyDesc (key : α → ℚ) (l : List α) :
    List.Perm (sortByKeyDesc key l) l := by
  induction l with
  | nil => exact List.Perm.refl _
  | cons x xs ih =>
    exact (perm_insertByKeyDesc key x (sortByKeyDesc key xs)).trans (List.Perm.cons x ih)

theorem length_sortByKeyDesc (key : α → ℚ) (l : List α) :
    (sortByKeyDesc key l).length = l.length :=
  (perm_sortByKeyDesc key l).length_eq

theorem pairwise_insertByKeyDesc (key : α → ℚ) (x : α) (l : List α)
    (h : l.Pairwise (fun a b => key b ≤ key a)) :
    (insertByKeyDesc key x l).Pairwise (fun a b => key b ≤ key a) := by
  induction l with
  | nil => simp [insertByKeyDesc]
  | cons y ys ih =>
    rw [List.pairwise_cons] at h
    obtain ⟨h1, h2⟩ := h
    simp only [insertByKeyDesc]
    by_cases hxy : key y ≤ key x
    · simp only [hxy, if_pos]
      rw [List.pairwise_cons]
      refine ⟨?_, ?_⟩
      · intro b hb
        rcases List.mem_cons.mp hb with hb | hb
        · exact hb ▸ hxy
        · exact (h1 b hb).trans hxy
      · rw [List.pairwise_cons]
        exact ⟨h1, h2⟩
    · simp only [hxy, if_neg, not_false_iff]
      rw [List.pairwise_cons]
      refine ⟨?_, ih h2⟩
      intro b hb
      rcases List.mem_cons.mp ((perm_insertByKeyDesc key x ys).mem_iff.mp hb) with hb | hb
      · exact hb ▸ le_of_lt (lt_of_not_le hxy)
      · exact h1 b hb

theorem pairwise_sortByKeyDesc (key : α → ℚ) (l : List α) :
    (sortByKeyDesc key l).Pairwise (fun a b => key b ≤ key a) := by
  induction l with
  | nil => simp [sortByKeyDesc]
  | cons x xs ih => exact pairwise_insertByKeyDesc key x _ ih

theorem map_snd_insertByKeyDesc (key : α → ℚ) (x : Nat × α) (l : List (Nat × α)) :
    (insertByKeyDesc (fun p => key p.2) x l).map Prod.snd =
      insertByKeyDesc key x.2 (l.map Prod.snd) := by
  induction l with
  | nil => rfl
  | cons y ys ih =>
    simp only [insertByKeyDesc, List.map_cons]
    by_cases h : key y.2 ≤ key x.2
    · simp [h]
    · simp [h, ih]

theorem map_snd_sortByKeyDesc (key : α → ℚ) (l : List (Nat × α)) :
    (sortByKeyDesc (fun p => key p.2) l).map Prod.snd =
      sortByKeyDesc key (l.map Prod.snd) := by
  induction l with
  | nil => rfl
  | cons x xs ih =>
    simp only [sortByKeyDesc, List.map_cons, map_snd_insertByKeyDesc, ih]

theorem pairwise_lexDesc_insert (key : α → ℚ) (x : Nat × α) (l : List (Nat × α))
    (hx : ∀ y ∈ l, x.1 < y.1) (h : l.Pairwise (lexDesc key)) :
    (insertByKeyDesc (fun p => key p.2) x l).Pairwise (lexDesc key) := by
  induction l with
  | nil => simp [insertByKeyDesc]
  | cons y ys ih =>
    rw [List.pairwise_cons] at h
    obtain ⟨h1, h2⟩ := h
    simp only [insertByKeyDesc]
    by_cases hxy : key y.2 ≤ key x.2
    · simp only [hxy, if_pos]
      rw [List.pairwise_cons]
      refine ⟨?_, ?_⟩
      · intro b hb
        rcases List.mem_cons.mp hb with rfl | hb
        · rcases lt_or_eq_of_le hxy with hlt | heq
          · exact Or.inl hlt
          · exact Or.inr ⟨heq.symm, hx b (List.mem_cons_self b ys)⟩
        · rcases h1 b hb with hlt | ⟨heq, hidx⟩
          · exact Or.inl (lt_of_lt_of_le hlt hxy)
          · rcases lt_or_eq_of_le hxy with hlt | heq2
            · exact Or.inl (heq ▸ hlt)
            · exact Or.inr ⟨heq2.symm.trans heq, lt_trans (hx y (List.mem_cons_self y ys)) hidx⟩
      · rw [List.pairwise_cons]
        exact ⟨h1, h2⟩
    · simp only [hxy, if_neg, not_false_iff]
      rw [List.pairwise_cons]
      refine ⟨?_, ih (fun z hz => hx z (List.mem_cons_of_mem y hz)) h2⟩
      intro b hb
      rcases List.mem_cons.mp
          ((perm_insertByKeyDesc (fun p => key p.2) x ys).mem_iff.mp hb) with hb | hb
      · exact hb ▸ Or.inl (lt_of_not_le hxy)
      · exact h1 b hb

theorem pairwise_lexDesc_sort (key : α → ℚ) (l : List (Nat × α))
    (h : l.Pairwise (fun a b => a.1 < b.1)) :
    (sortByKeyDesc (fun p => key p.2) l).Pairwise (lexDesc key) := by
  induction l with
  | nil => simp [sortByKeyDesc]
  | cons x xs ih =>
    rw [List.pairwise_cons] at h
    refine pairwise_lexDesc_insert key x _ ?_ (ih h.2)
    intro y hy
    exact h.1 y ((perm_sortByKeyDesc _ xs).mem_iff.mp hy)

theorem pairwise_fst_lt_enum (l : List α) :
    l.enum.Pairwise (fun a b => a.1 < b.1) := by
  have h1 : l.enum.map Prod.fst = List.range l.length := List.enum_map_fst l
  have h2 : (l.enum.map Prod.fst).Pairwise (· < ·) := by
    rw [h1]; exact List.pairwise_lt_range l.length
  exact (List.pairwise_map.mp h2).imp (fun h => h)

theorem length_jsSliceTo (k : ℤ) (l : List α) :
    (jsSliceTo k l).length = if 0 ≤ k then min k.toNat l.length else l.length - (-k).toNat := by
  unfold jsSliceTo
  split
  · simp [List.length_take]
  · simp only [List.length_take]
    omega

/-! ### Helper lemmas: snapshot serialization round trip -/

theorem optStrOfJson_ofOptStr (o : Option String) :
    optStrOfJson (Json.ofOptStr o) = some o := by
  cases o <;> rfl

theorem decodeStrs_map_str (l : List String) :
    decodeStrs (l.map Json.str) = some l := by
  induction l with
  | nil => rfl
  | cons s rest ih => simp [decodeStrs, ih]

theorem decodeNums_map_num (l : List ℚ) :
    decodeNums (l.map Json.num) = some l := by
  induction l with
  | nil => rfl
  | cons q rest ih => simp [decodeNums, ih]

theorem metadata_fromJson_toJson (m : Metadata) :
    Metadata.fromJson m.toJson = some m := by
  obtain ⟨u, t, s, d, c, k, p⟩ := m
  cases u <;> cases t <;> cases s <;> cases d <;> cases c <;> cases k <;>
    simp [Metadata.toJson, Metadata.fromJson, decodeStrs_map_str, Json.ofOptStr,
      optStrOfJson]

theorem document_fromJson_toJson (d : Document) :
    Document.fromJson d.toJson = some d := by
  obtain ⟨i, t, md, e⟩ := d
  simp [Document.toJson, Document.fromJson, metadata_fromJson_toJson, decodeNums_map_num]

theorem decodeDocs_map_toJson (docs : List Document) :
    decodeDocs (docs.map Document.toJson) = some docs := by
  induction docs with
  | nil => rfl
  | cons d rest ih => simp [decodeDocs, document_fromJson_toJson, ih]

theorem docsFromJson_docsToJson (docs : List Document) :
    docsFromJson (docsToJson docs) = some docs := by
  simp [docsFromJson, docsToJson, decodeDocs_map_toJson]

theorem load_save (docs : List Document) :
    VectorStore.load (VectorStore.save docs) = Except.ok docs := by
  simp [VectorStore.load, VectorStore.save, docsFromJson_docsToJson]

/-! ### Helper lemmas: the indexer -/

theorem length_add (doc : DocInput) (genId : String) (docs : List Document) :
    (VectorStore.add doc genId docs).length = docs.length + 1 := by
  simp [VectorStore.add]

theorem totalItems_cons (s : ScrapedSource) (rest : List ScrapedSource) :
    totalItems (s :: rest) = s.content_items.length + totalItems rest := by
  simp [totalItems]

theorem indexItems_allOk (embedFn : EmbedFn) (gen : Nat → String) (url : Option String)
    (items : List ContentItem) (st : IndexState)
    (h : ∀ item ∈ items, ∃ v, embedFn item.text = Except.ok v) :
    (indexItems embedFn gen url items st).2 = none ∧
    (indexItems embedFn gen url items st).1.embedCalls = st.embedCalls + items.length ∧
    (indexItems embedFn gen url items st).1.indexed = st.indexed + items.length ∧
    (indexItems embedFn gen url items st).1.store.length = st.store.length + items.length := by
  induction items generalizing st with
  | nil => simp [indexItems]
  | cons item rest ih =>
    obtain ⟨v, hv⟩ := h item (List.mem_cons_self _ _)
    simp only [indexItems, hv]
    have ih' := ih
      { store := VectorStore.add
          { text := item.text, metadata := some (metadataOf url item),
            embedding := v } (gen st.indexed) st.store
        indexed := st.indexed + 1
        embedCalls := st.embedCalls + 1 }
      (fun i hi => h i (List.mem_cons_of_mem _ hi))
    refine ⟨ih'.1, ?_, ?_, ?_⟩
    · rw [ih'.2.1]
      simp only [List.length_cons]
      omega
    · rw [ih'.2.2.1]
      simp only [List.length_cons]
      omega
    · rw [ih'.2.2.2]
      simp only [length_add, List.length_cons]
      omega

theorem indexSources_allOk (embedFn : EmbedFn) (gen : Nat → String)
    (sources : List ScrapedSource) (st : IndexState)
    (h : ∀ src ∈ sources, ∀ item ∈ src.content_items, ∃ v, embedFn item.text = Except.ok v) :
    (indexSources embedFn gen sources st).2 = none ∧
    (indexSources embedFn gen sources st).1.embedCalls = st.embedCalls + totalItems sources ∧
    (indexSources embedFn gen sources st).1.indexed = st.indexed + totalItems sources ∧
    (indexSources embedFn gen sources st).1.store.length = st.store.length + totalItems sources := by
  induction sources generalizing st with
  | nil =>
    exact ⟨rfl, by simp [indexSources, totalItems], by simp [indexSources, totalItems],
      by simp [indexSources, totalItems]⟩
  | cons src rest ih =>
    simp only [indexSources]
    have hitems := indexItems_allOk embedFn gen src.url src.content_items st
      (h src (List.mem_cons_self _ _))
    generalize hg : indexItems embedFn gen src.url src.content_items st = p at hitems ⊢
    obtain ⟨st₁, res⟩ := p
    obtain ⟨h2, hc, hi, hsl⟩ := hitems
    simp only at h2 hc hi hsl
    subst h2
    have ih' := ih st₁ (fun s hs i hi' => h s (List.mem_cons_of_mem _ hs) i hi')
    refine ⟨ih'.1, ?_, ?_, ?_⟩
    · rw [ih'.2.1, hc, totalItems_cons]
      omega
    · rw [ih'.2.2.1, hi, totalItems_cons]
      omega
    · rw [ih'.2.2.2, hsl, totalItems_cons]
      omega

theorem indexItems_failAt (embedFn : EmbedFn) (gen : Nat → String) (url : Option String)
    (pre : List ContentItem) (bad : ContentItem) (rest : List ContentItem)
    (st : IndexState) (e : EmbedError)
    (hpre : ∀ item ∈ pre, ∃ v, embedFn item.text = Except.ok v)
    (hbad : embedFn bad.text = Except.error e) :
    (indexItems embedFn gen url (pre ++ bad :: rest) st).2 = some e ∧
    (indexItems embedFn gen url (pre ++ bad :: rest) st).1.embedCalls =
      st.embedCalls + pre.length + 1 ∧
    (indexItems embedFn gen url (pre ++ bad :: rest) st).1.store.length =
      st.store.length + pre.length := by
  induction pre generalizing st with
  | nil => simp [indexItems, hbad]
  | cons item preRest ih =>
    obtain ⟨v, hv⟩ := hpre item (List.mem_cons_self _ _)
    simp only [List.cons_append, indexItems, hv]
    have ih' := ih
      { store := VectorStore.add
          { text := item.text, metadata := some (metadataOf url item),
            embedding := v } (gen st.indexed) st.store
        indexed := st.indexed + 1
        embedCalls := st.embedCalls + 1 }
      (fun i hi => hpre i (List.mem_cons_of_mem _ hi))
    simp only [List.append_eq] at ih' ⊢
    refine ⟨ih'.1, ?_, ?_⟩
    · rw [ih'.2.1]
      simp only [List.length_cons]
      omega
    · rw [ih'.2.2]
      simp only [length_add, List.length_cons]
      omega

/-- A fully successful `indexSession` on an empty store: one `embed` call
per content item, all items added, stats reported. -/
theorem indexSession_allOk (embedFn : EmbedFn) (gen : Nat → String) (data : ScrapedData)
    (store : List Document)
    (h : ∀ src ∈ data.scraped_content, ∀ item ∈ src.content_items,
      ∃ v, embedFn item.text = Except.ok v) :
    (indexSession embedFn gen (some data) store).2.1 = totalItems data.scraped_content ∧
    (indexSession embedFn gen (some data) store).1.length =
      store.length + totalItems data.scraped_content ∧
    (indexSession embedFn gen (some data) store).2.2 =
      Except.ok ⟨totalItems data.scraped_content, data.sessionId, data.masterPrompt⟩ := by
  simp only [indexSession]
  have hs := indexSources_allOk embedFn gen data.scraped_content ⟨store, 0, 0⟩ h
  generalize hg : indexSources embedFn gen data.scraped_content ⟨store, 0, 0⟩ = p at hs ⊢
  obtain ⟨st₁, res⟩ := p
  obtain ⟨h2, hc, hi, hsl⟩ := hs
  simp only at h2 hc hi hsl
  subst h2
  refine ⟨?_, ?_, ?_⟩
  · show st₁.embedCalls = totalItems data.scraped_content
    omega
  · show st₁.store.length = store.length + totalItems data.scraped_content
    exact hsl
  · have hind : st₁.indexed = totalItems data.scraped_content := by omega
    exact congrArg (fun n : Nat => (Except.ok { indexed := n, sessionId := data.sessionId, masterPrompt := data.masterPrompt } : Except IndexError IndexStats)) hind

theorem jsSliceTo_sublist (k : ℤ) (l : List α) : (jsSliceTo k l).Sublist l := by
  unfold jsSliceTo
  split <;> exact List.take_sublist _ _

/-! ### Helper lemmas: the orchestrator -/

/-- `initRAG` on a session whose snapshot loads non-empty documents: the
`size() === 0` guard fails, so no indexing and no save happen. -/
theorem initRAG_cacheHit (embedFn : EmbedFn) (gen : Nat → String) (env : Env)
    (docs : List Document)
    (hload : VectorStore.load env.snapshot = Except.ok docs) (hne : docs ≠ []) :
    (initRAG embedFn gen env).embedCalls = 0 ∧
    (initRAG embedFn gen env).snapshotAfter = env.snapshot ∧
    (∀ data, env.scraped = some data →
      (initRAG embedFn gen env).result = Except.ok ⟨docs, data⟩) := by
  have h0 : ¬(docs.length = 0) := by
    simpa [List.length_eq_zero] using hne
  cases henv : env.scraped with
  | none =>
    refine ⟨?_, ?_, ?_⟩
    · simp [initRAG, hload, h0, henv]
    · simp [initRAG, hload, h0, henv]
    · intro data hdata
      exact absurd hdata (by simp)
  | some data =>
    refine ⟨?_, ?_, ?_⟩
    · simp [initRAG, hload, h0, henv]
    · simp [initRAG, hload, h0, henv]
    · intro data' hdata
      obtain rfl : data = data' := by injection hdata
      simp [initRAG, hload, h0, henv]

/-- `initRAG` on a session whose snapshot loads empty, with every embedding
call succeeding: a full indexing pass runs and the store is saved. -/
theorem initRAG_unindexed (embedFn : EmbedFn) (gen : Nat → String) (env : Env)
    (data : ScrapedData)
    (hsnap : VectorStore.load env.snapshot = Except.ok [])
    (hscraped : env.scraped = some data)
    (hok : ∀ src ∈ data.scraped_content, ∀ item ∈ src.content_items,
      ∃ v, embedFn item.text = Except.ok v) :
    (initRAG embedFn gen env).embedCalls = totalItems data.scraped_content ∧
    ∃ store', (initRAG embedFn gen env).snapshotAfter = VectorStore.save store' ∧
      store'.length = totalItems data.scraped_content ∧
      (initRAG embedFn gen env).result = Except.ok ⟨store', data⟩ := by
  have hidx := indexSession_allOk embedFn gen data [] hok
  generalize hg : indexSession embedFn gen (some data) [] = t at hidx
  obtain ⟨s', c', r'⟩ := t
  simp only at hidx
  obtain ⟨hc, hsl, hr⟩ := hidx
  subst hc
  subst hr
  refine ⟨?_, s', ?_, by simpa using hsl, ?_⟩ <;>
    simp [initRAG, hsnap, hscraped, hg]

theorem chatMessage_map_eta (l : List ChatMessage) :
    (l.map fun m => ChatMessage.mk m.role m.content) = l := by
  induction l with
  | nil => rfl
  | cons m rest ih => simp [ih]

/-! ## The claims -/

/-- C3 counterexample: `VectorStore.load()` of a corrupted/unparsable
snapshot raises — the `JSON.parse` error's `code` is not `ENOENT`, so the
catch block rethrows it — instead of leaving the store empty as the claim
states. -/
theorem c3_counterexample :
    VectorStore.load SnapshotFile.corrupt = Except.error LoadError.parseError ∧
    VectorStore.load SnapshotFile.corrupt ≠ Except.ok [] :=
  ⟨rfl, fun h => nomatch h⟩

/-- C3 (amended): `load()` treats only a missing snapshot file (`ENOENT`) as
the empty store; corrupted or unparsable contents raise the parse error, and
any other read failure is rethrown — neither is treated as an empty store. -/
theorem c3_load_missing_only :
    VectorStore.load SnapshotFile.missing = Except.ok [] ∧
    VectorStore.load SnapshotFile.corrupt = Except.error LoadError.parseError ∧
    VectorStore.load SnapshotFile.ioError = Except.error LoadError.ioError :=
  ⟨rfl, rfl, rfl⟩

/-- C4 counterexample: two `add` calls with the same explicit id `"a"`
produce a store whose ids are `["a", "a"]` — duplicates are neither rejected
nor overwritten, refuting the claim that no two documents share an id. -/
theorem c4_counterexample :
    ((VectorStore.add { id := some "a", text := "t2", embedding := [1] } "g2"
        (VectorStore.add { id := some "a", text := "t1", embedding := [1] } "g1" [])).map
      Document.id) = ["a", "a"] ∧
    ¬ ((VectorStore.add { id := some "a", text := "t2", embedding := [1] } "g2"
        (VectorStore.add { id := some "a", text := "t1", embedding := [1] } "g1" [])).map
      Document.id).Nodup := by
  exact ⟨rfl, by decide⟩

/-- C4 (amended): `add` appends unconditionally — it never checks the
existing ids.  Adding a document whose (non-empty) id is already present
appends a second document with that id, so the store can hold duplicates. -/
theorem c4_add_always_appends (doc : DocInput) (gen i : String) (docs : List Document)
    (hid : doc.id = some i) (hne : i ≠ "") :
    (VectorStore.add doc gen docs).map Document.id = docs.map Document.id ++ [i] ∧
    ((VectorStore.add doc gen docs).map Document.id).count i =
      (docs.map Document.id).count i + 1 := by
  have h1 : (VectorStore.add doc gen docs).map Document.id = docs.map Document.id ++ [i] := by
    simp [VectorStore.add, jsOr, hid, hne]
  refine ⟨h1, ?_⟩
  rw [h1]
  simp [List.count_append]

/-- C4 witness: adding id `"a"` onto a store already holding id `"a"` yields
ids `["a", "a"]` with `"a"` occurring twice. -/
theorem c4_witness :
    ((VectorStore.add { id := some "a", text := "t2", embedding := [2] } "g"
        [{ id := "a", text := "t1", metadata := {}, embedding := [1] }]).map
      Document.id) = ["a", "a"] ∧
    (((VectorStore.add { id := some "a", text := "t2", embedding := [2] } "g"
        [{ id := "a", text := "t1", metadata := {}, embedding := [1] }]).map
      Document.id).count "a") = 2 := by
  have h := c4_add_always_appends { id := some "a", text := "t2", embedding := [2] } "g" "a"
    [{ id := "a", text := "t1", metadata := {}, embedding := [1] }] rfl (by decide)
  exact ⟨h.1, h.2⟩

/-- C5: `load(save(x))` reproduces the store's document list exactly —
every id, text, metadata record and embedding value round-trips through the
JSON snapshot. -/
theorem c5_save_load_roundtrip (docs : List Document) :
    VectorStore.load (VectorStore.save docs) = Except.ok docs :=
  load_save docs

/-- C7: if embedding the question fails, `ragQuery` propagates the failure
to the caller (the spec's `RetrievalUnavailable`) and performs zero
generation calls — the Generation Port is never invoked. -/
theorem c7_embed_failure_no_generation (embedFn : EmbedFn) (generateFn : GenerateFn)
    (sim : Emb → Emb → ℚ) (question : String) (docs : List Document)
    (opts : QueryOptions) (e : EmbedError)
    (h : embedFn question = Except.error e) :
    ragQuery embedFn generateFn sim question docs opts =
      (Except.error (RagError.retrievalUnavailable e), 0) := by
  simp [ragQuery, h]

/-- C7 witness: a concrete failing embedder propagates and makes no
generation call. -/
theorem c7_witness :
    ragQuery (fun _ => Except.error ⟨"embedding down"⟩) (fun _ => Except.ok "answer")
      (fun _ _ => 0) "q" [] {} =
      (Except.error (RagError.retrievalUnavailable ⟨"embedding down"⟩), 0) :=
  c7_embed_failure_no_generation _ _ _ _ _ _ _ rfl

/-- C8: the assembled prompt contains, between the system message and the
final user turn, exactly the last five conversation-history messages, in
their original order with role and content unchanged (a suffix of the
caller's history); the embedding is pure, matching the source's read-only
use of the history (`slice` copies; the caller's array is not written). -/
theorem c8_history_window (question : String) (relevantDocs : List Scored)
    (systemPrompt : Option String) (history : List ChatMessage) :
    ((buildMessages question relevantDocs systemPrompt history).drop 1).dropLast =
      lastN 5 history ∧
    List.IsSuffix (lastN 5 history) history ∧
    (lastN 5 history).length = min 5 history.length := by
  refine ⟨?_, ?_, ?_⟩
  · show (((({ role := "system", content := jsOr systemPrompt defaultSystemMessage } : ChatMessage) ::
        (lastN 5 history).map fun (m : ChatMessage) => ({ role := m.role, content := m.content } : ChatMessage)) ++
        [_]).drop 1).dropLast = lastN 5 history
    rw [List.cons_append, List.drop_one, List.tail_cons, List.dropLast_concat]
    exact chatMessage_map_eta _
  · exact List.drop_suffix _ _
  · simp only [lastN, List.length_drop]
    omega

/-- C1 counterexample: with two equal-scored documents stored as id `"b"`
then `"a"`, `search` with `topK = -1` returns one result (JS `slice(0, -1)`
drops only the last ranked element), not the empty list the claim requires
for `topK ≤ 0`; and with `topK = 2` the tied results come back in insertion
order `["b", "a"]`, not ascending-id order. -/
theorem c1_counterexample :
    VectorStore.search (fun _ _ => 0) [1] (-1)
      [{ id := "b", text := "tb", metadata := {}, embedding := [1] },
       { id := "a", text := "ta", metadata := {}, embedding := [1] }] ≠ [] ∧
    (VectorStore.search (fun _ _ => 0) [1] 2
      [{ id := "b", text := "tb", metadata := {}, embedding := [1] },
       { id := "a", text := "ta", metadata := {}, embedding := [1] }]).map
      (fun r => r.doc.id) = ["b", "a"] := by
  exact ⟨by decide, by decide⟩

/-- C1 (amended): `search` returns exactly `min(topK, size())` results when
`topK ≥ 0` (so an empty store or `topK = 0` yields `[]`), but a negative
`topK` is interpreted by JS `slice` semantics as end index `size + topK`,
returning `size - |topK|` leading results rather than `[]`; results are
sorted by descending score, and ties are broken by the documents' insertion
order (the stable sort of the index-decorated scored list is strictly
ordered by score descending, then original position ascending), not by
ascending id. -/
theorem c1_search_slice_sorted_stable (sim : Emb → Emb → ℚ) (q : Emb) (topK : ℤ)
    (docs : List Document) :
    (VectorStore.search sim q topK docs).length =
      (if 0 ≤ topK then min topK.toNat docs.length
       else docs.length - (-topK).toNat) ∧
    VectorStore.search sim q topK [] = [] ∧
    VectorStore.search sim q 0 docs = [] ∧
    (VectorStore.search sim q topK docs).Pairwise (fun a b => b.score ≤ a.score) ∧
    VectorStore.search sim q topK docs =
      jsSliceTo topK ((sortByKeyDesc (fun p => Scored.score p.2)
        (VectorStore.scoredOf sim q docs).enum).map Prod.snd) ∧
    (sortByKeyDesc (fun p => Scored.score p.2)
      (VectorStore.scoredOf sim q docs).enum).Pairwise (lexDesc Scored.score) := by
  refine ⟨?_, ?_, ?_, ?_, ?_, ?_⟩
  · show (jsSliceTo topK (sortByKeyDesc Scored.score (VectorStore.scoredOf sim q docs))).length = _
    rw [length_jsSliceTo, length_sortByKeyDesc]
    simp [VectorStore.scoredOf]
  · show jsSliceTo topK (sortByKeyDesc Scored.score (VectorStore.scoredOf sim q [])) = []
    simp [VectorStore.scoredOf, sortByKeyDesc, jsSliceTo]
  · show jsSliceTo 0 (sortByKeyDesc Scored.score (VectorStore.scoredOf sim q docs)) = []
    simp [jsSliceTo]
  · exact (pairwise_sortByKeyDesc Scored.score _).sublist (jsSliceTo_sublist topK _)
  · show jsSliceTo topK (sortByKeyDesc Scored.score (VectorStore.scoredOf sim q docs)) = _
    rw [map_snd_sortByKeyDesc, List.enum_map_snd]
  · exact pairwise_lexDesc_sort Scored.score _ (pairwise_fst_lt_enum _)

/-- C2 counterexample: a batch of two items where embedding the first fails
— `indexSession` propagates the error (the claim requires no raise), and the
remaining item is *not* embedded or added (the final store is empty, not of
size 1); no `failedCount` exists in the result. -/
theorem c2_counterexample :
    (indexSession (fun s => if s = "t1" then Except.error ⟨"down"⟩ else Except.ok [1])
        (fun _ => "gid")
        (some { sessionId := "s", masterPrompt := "mp", scraped_content := [{ content_items := [{ text := "t1" }, { text := "t2" }] }] })
        []).2.2 = Except.error (IndexError.embedFailed ⟨"down"⟩) ∧
    (indexSession (fun s => if s = "t1" then Except.error ⟨"down"⟩ else Except.ok [1])
        (fun _ => "gid")
        (some { sessionId := "s", masterPrompt := "mp", scraped_content := [{ content_items := [{ text := "t1" }, { text := "t2" }] }] })
        []).1 = [] := by
  exact ⟨rfl, rfl⟩

/-- C2 (amended): a per-item embedding failure aborts the whole batch: the
uncaught exception propagates out of `indexSession`, items before the
failure remain added (the store grows by exactly the number of successfully
embedded preceding items), items after it are never embedded, and no failure
count is reported — the embed call count is the preceding items plus the one
failing call. -/
theorem c2_embed_failure_aborts_batch (embedFn : EmbedFn) (gen : Nat → String)
    (sid mp : String) (url : Option String) (pre : List ContentItem)
    (bad : ContentItem) (rest : List ContentItem) (store : List Document) (e : EmbedError)
    (hpre : ∀ item ∈ pre, ∃ v, embedFn item.text = Except.ok v)
    (hbad : embedFn bad.text = Except.error e) :
    (indexSession embedFn gen
        (some ⟨sid, mp, [⟨url, pre ++ bad :: rest⟩]⟩) store).2.2 =
      Except.error (IndexError.embedFailed e) ∧
    (indexSession embedFn gen
        (some ⟨sid, mp, [⟨url, pre ++ bad :: rest⟩]⟩) store).1.length =
      store.length + pre.length ∧
    (indexSession embedFn gen
        (some ⟨sid, mp, [⟨url, pre ++ bad :: rest⟩]⟩) store).2.1 =
      pre.length + 1 := by
  have hfail := indexItems_failAt embedFn gen url pre bad rest ⟨store, 0, 0⟩ e hpre hbad
  simp only [indexSession, indexSources]
  generalize hg : indexItems embedFn gen url (pre ++ bad :: rest) ⟨store, 0, 0⟩ = t at hfail ⊢
  obtain ⟨st₁, res⟩ := t
  obtain ⟨h2, hc, hsl⟩ := hfail
  simp only at h2 hc hsl
  subst h2
  refine ⟨rfl, ?_, ?_⟩
  · show st₁.store.length = store.length + pre.length
    exact hsl
  · show st₁.embedCalls = pre.length + 1
    omega

/-- C2 witness: one good item, then a failing one, then another good one —
the error propagates, one document was added, two embed calls were made. -/
theorem c2_witness :
    (indexSession (fun s => if s = "bad" then Except.error ⟨"down"⟩ else Except.ok [1])
        (fun _ => "gid")
        (some ⟨"s", "mp", [⟨none, [{ text := "ok1" }] ++ { text := "bad" } :: [{ text := "ok2" }]⟩]⟩)
        []).2.2 = Except.error (IndexError.embedFailed ⟨"down"⟩) ∧
    (indexSession (fun s => if s = "bad" then Except.error ⟨"down"⟩ else Except.ok [1])
        (fun _ => "gid")
        (some ⟨"s", "mp", [⟨none, [{ text := "ok1" }] ++ { text := "bad" } :: [{ text := "ok2" }]⟩]⟩)
        []).1.length = 0 + 1 ∧
    (indexSession (fun s => if s = "bad" then Except.error ⟨"down"⟩ else Except.ok [1])
        (fun _ => "gid")
        (some ⟨"s", "mp", [⟨none, [{ text := "ok1" }] ++ { text := "bad" } :: [{ text := "ok2" }]⟩]⟩)
        []).2.1 = 1 + 1 := by
  have h := c2_embed_failure_aborts_batch
    (fun s => if s = "bad" then Except.error ⟨"down"⟩ else Except.ok [1])
    (fun _ => "gid") "s" "mp" none [{ text := "ok1" }] { text := "bad" } [{ text := "ok2" }]
    [] ⟨"down"⟩
    (by
      intro item hitem
      simp only [List.mem_singleton] at hitem
      subst hitem
      exact ⟨[1], rfl⟩)
    rfl
  exact ⟨h.1, h.2.1, h.2.2⟩

/-- C6: when the loaded snapshot is non-empty (cache hit), `initRAG` makes
zero embedding calls, leaves the snapshot file untouched (no save, hence no
`indexSession`), and resolves with exactly the loaded documents — the store
size is unchanged. -/
theorem c6_cache_hit_noop (embedFn : EmbedFn) (gen : Nat → String) (env : Env)
    (docs : List Document)
    (hload : VectorStore.load env.snapshot = Except.ok docs) (hne : docs ≠ []) :
    (initRAG embedFn gen env).embedCalls = 0 ∧
    (initRAG embedFn gen env).snapshotAfter = env.snapshot ∧
    (∀ data, env.scraped = some data →
      (initRAG embedFn gen env).result = Except.ok ⟨docs, data⟩) :=
  initRAG_cacheHit embedFn gen env docs hload hne

/-- C6 witness: a session with a one-document snapshot re-initializes with
zero embedding calls and an unchanged store. -/
theorem c6_witness :
    (initRAG (fun _ => Except.ok [1]) (fun _ => "g")
      { snapshot := VectorStore.save [{ id := "a", text := "t", metadata := {}, embedding := [1] }],
        scraped := some { sessionId := "s", masterPrompt := "mp", scraped_content := [] } }).embedCalls = 0 ∧
    (initRAG (fun _ => Except.ok [1]) (fun _ => "g")
      { snapshot := VectorStore.save [{ id := "a", text := "t", metadata := {}, embedding := [1] }],
        scraped := some { sessionId := "s", masterPrompt := "mp", scraped_content := [] } }).result =
      Except.ok ⟨[{ id := "a", text := "t", metadata := {}, embedding := [1] }],
        { sessionId := "s", masterPrompt := "mp", scraped_content := [] }⟩ := by
  have h := c6_cache_hit_noop (fun _ => Except.ok [1]) (fun _ => "g")
    { snapshot := VectorStore.save [{ id := "a", text := "t", metadata := {}, embedding := [1] }],
      scraped := some { sessionId := "s", masterPrompt := "mp", scraped_content := [] } }
    [{ id := "a", text := "t", metadata := {}, embedding := [1] }]
    (load_save _) (by simp)
  exact ⟨h.1, h.2.2 _ rfl⟩

/-- C9 counterexample: a one-item unindexed session; the interleaving in
which both `initRAG` calls load before either saves makes two embedding
calls in total — one full indexing pass per caller — while a single call
makes one, refuting "the Embedding Port is invoked at most once per raw
content item". -/
theorem c9_counterexample :
    twoCallEmbedCalls (fun _ => Except.ok [1]) (fun _ => "g1") (fun _ => "g2")
      { snapshot := SnapshotFile.missing,
        scraped := some { sessionId := "s", masterPrompt := "mp", scraped_content := [{ content_items := [{ text := "t" }] }] } } false = 2 ∧
    (initRAG (fun _ => Except.ok [1]) (fun _ => "g1")
      { snapshot := SnapshotFile.missing,
        scraped := some { sessionId := "s", masterPrompt := "mp", scraped_content := [{ content_items := [{ text := "t" }] }] } }).embedCalls = 1 := by
  exact ⟨rfl, rfl⟩

/-- C9 (amended): `initRAG` has no per-session lock or in-flight future.  A
second call that loads the snapshot before the first call's save (the racy
but admissible schedule of the unsynchronized async calls) runs its own full
indexing pass, embedding every item again — twice the calls in total; only a
second call that loads after the first's save observes the cache and makes
zero embedding calls. -/
theorem c9_no_single_flight_guard (embedFn : EmbedFn) (gen₁ gen₂ : Nat → String)
    (env : Env) (data : ScrapedData)
    (hsnap : VectorStore.load env.snapshot = Except.ok [])
    (hscraped : env.scraped = some data)
    (hok : ∀ src ∈ data.scraped_content, ∀ item ∈ src.content_items,
      ∃ v, embedFn item.text = Except.ok v)
    (hpos : 0 < totalItems data.scraped_content) :
    twoCallEmbedCalls embedFn gen₁ gen₂ env false = 2 * totalItems data.scraped_content ∧
    twoCallEmbedCalls embedFn gen₁ gen₂ env true = totalItems data.scraped_content := by
  obtain ⟨hcA, store', hsnapA, hlen, hres⟩ :=
    initRAG_unindexed embedFn gen₁ env data hsnap hscraped hok
  constructor
  · have hB := initRAG_unindexed embedFn gen₂ env data hsnap hscraped hok
    show (initRAG embedFn gen₁ env).embedCalls + (initRAG embedFn gen₂ env).embedCalls =
      2 * totalItems data.scraped_content
    rw [hcA, hB.1]
    omega
  · show (initRAG embedFn gen₁ env).embedCalls +
      (initRAG embedFn gen₂
        { snapshot := (initRAG embedFn gen₁ env).snapshotAfter,
          scraped := env.scraped }).embedCalls = totalItems data.scraped_content
    rw [hsnapA]
    have hne : store' ≠ [] := by
      intro h0
      rw [h0] at hlen
      simp at hlen
      omega
    have hB := initRAG_cacheHit embedFn gen₂ ⟨VectorStore.save store', env.scraped⟩
      store' (load_save store') hne
    rw [hcA, hB.1]
    omega

/-- C9 witness: the one-item session — the racy schedule makes `2 * 1`
embedding calls, the serialized schedule one. -/
theorem c9_witness :
    twoCallEmbedCalls (fun _ => Except.ok [1]) (fun _ => "g1") (fun _ => "g2")
      { snapshot := SnapshotFile.missing,
        scraped := some { sessionId := "s2", masterPrompt := "mp", scraped_content := [{ content_items := [{ text := "t" }] }] } } false =
      2 * totalItems [{ content_items := [{ text := "t" }] }] ∧
    twoCallEmbedCalls (fun _ => Except.ok [1]) (fun _ => "g1") (fun _ => "g2")
      { snapshot := SnapshotFile.missing,
        scraped := some { sessionId := "s2", masterPrompt := "mp", scraped_content := [{ content_items := [{ text := "t" }] }] } } true =
      totalItems [{ content_items := [{ text := "t" }] }] := by
  have h := c9_no_single_flight_guard (fun _ => Except.ok [1]) (fun _ => "g1") (fun _ => "g2")
    { snapshot := SnapshotFile.missing,
      scraped := some { sessionId := "s2", masterPrompt := "mp", scraped_content := [{ content_items := [{ text := "t" }] }] } }
    { sessionId := "s2", masterPrompt := "mp", scraped_content := [{ content_items := [{ text := "t" }] }] }
    rfl rfl
    (by
      intro src hsrc item hitem
      simp only [List.mem_singleton] at hsrc
      subst hsrc
      simp only [List.mem_singleton] at hitem
      subst hitem
      exact ⟨[1], rfl⟩)
    (by decide)
  exact ⟨h.1, h.2⟩

/-- C10: `initRAG` re-reads `data/scraped/<sessionId>.json` unconditionally
after loading the vector store, so when that file is absent every `initRAG`
call fails — in particular even a session with a non-empty snapshot, which
needs no indexing, fails with the missing-session-file error. -/
theorem c10_unconditional_session_read (embedFn : EmbedFn) (gen : Nat → String)
    (env : Env) (hscraped : env.scraped = none) :
    (∀ h, (initRAG embedFn gen env).result ≠ Except.ok h) ∧
    (∀ docs, VectorStore.load env.snapshot = Except.ok docs → docs ≠ [] →
      (initRAG embedFn gen env).result = Except.error InitError.sessionFileMissing) := by
  constructor
  · intro h
    cases hl : VectorStore.load env.snapshot with
    | error e => simp [initRAG, hl]
    | ok docs =>
      by_cases h0 : docs.length = 0
      · simp [initRAG, hl, hscraped, h0, indexSession]
      · simp [initRAG, hl, hscraped, h0]
  · intro docs hl hne
    have h0 : ¬(docs.length = 0) := by
      simpa [List.length_eq_zero] using hne
    simp [initRAG, hl, h0, hscraped]

/-- C10 witness: a session with a one-document snapshot but no scraped file
fails with the missing-session-file error despite needing no indexing. -/
theorem c10_witness :
    (initRAG (fun _ => Except.ok [1]) (fun _ => "g")
      { snapshot := VectorStore.save [{ id := "a", text := "t", metadata := {}, embedding := [1] }],
        scraped := none }).result = Except.error InitError.sessionFileMissing := by
  have h := c10_unconditional_session_read (fun _ => Except.ok [1]) (fun _ => "g")
    { snapshot := VectorStore.save [{ id := "a", text := "t", metadata := {}, embedding := [1] }],
      scraped := none } rfl
  exact h.2 [{ id := "a", text := "t", metadata := {}, embedding := [1] }] (load_save _) (by simp)

end Rag
